import Mathlib

/-!
Shallow embedding of the email scheduling/queueing core of the Go-Claude
repository (TypeScript), for checking its natural-language specification.

Conventions of the embedding:
* Timestamps are integers of milliseconds since the Unix epoch (UTC), the
  representation JavaScript `Date` uses.  `Int` division `/` and `%` are
  Euclidean, which for the positive divisors used here coincides with the
  floor semantics of JavaScript calendar arithmetic.
* The external IANA timezone facility of the JavaScript runtime is a
  parameter `TZEnv`: given a timezone string and an instant it returns the
  UTC offset in milliseconds, or `none` when the string is invalid (the
  runtime would throw, which the source catches).
* Database rows are Lean structures mirroring the drizzle schema in
  `shared/schema.ts`; column defaults (`deliveryStatus` defaults to
  "sent", `sentDate` defaults to now) are applied by `logEmailHistory`
  exactly when the inserting call site omits the column, as drizzle does.
* External collaborators (content generator, mail transmitter) are passed
  in as data / boolean outcomes; a `false` send outcome models the
  transmitter failing (the source's `emailService.sendWeeklyEmail`
  throws on failure, which callers catch or propagate).
-/

/-- Day of week of an epoch-milliseconds instant, JavaScript `getDay`
numbering (0 = Sunday, 1 = Monday, ...).  The Unix epoch was a Thursday. -/
def dayOfWeek (t : Int) : Int :=
  (t / 86400000 + 4) % 7

/-- Hour of day (0..23) of an epoch-milliseconds instant, as JavaScript
`getHours` on a wall-clock value. -/
def hourOfDay (t : Int) : Int :=
  t % 86400000 / 3600000

/-- `users` table row (shared/schema.ts).  `currentWeek` defaults to 0,
`isActive` to true; both are always populated on insert. -/
structure User where
  id : Nat
  email : String
  timezone : String
  goals : List String
  currentWeek : Int
  isActive : Bool
  lastEmailSent : Option Int
  deriving Repr, DecidableEq

/-- `email_history` table row (shared/schema.ts).  `deliveryStatus` has
column default "sent"; `sentDate` has column default now(). -/
structure EmailRecord where
  id : Nat
  userId : Nat
  weekNumber : Int
  subject : Option String
  content : Option String
  actionItem : Option String
  sentDate : Option Int
  deliveryStatus : String
  openedAt : Option Int
  clickCount : Int
  resendId : Option String
  deriving Repr, DecidableEq

/-- The persistent store: the two tables plus the serial-id counters. -/
structure Store where
  users : List User
  records : List EmailRecord
  nextUserId : Nat
  nextRecordId : Nat
  deriving Repr, DecidableEq

/-- The JavaScript runtime's IANA timezone conversion: timezone name and
instant to UTC offset in milliseconds, `none` for an invalid name. -/
def TZEnv : Type := String → Int → Option Int

/-- `DatabaseStorage.isUserTimeWindow` (server/storage.ts): convert `now`
to the user's timezone and test Monday (`getDay() == 1`) at hour 9; on a
conversion error fall back to the same test on server time (the server's
own offset `serverOff`). -/
def isUserTimeWindow (env : TZEnv) (serverOff : Int) (user : User) (now : Int) : Bool :=
  match env user.timezone now with
  | some off => dayOfWeek (now + off) == 1 && hourOfDay (now + off) == 9
  | none => dayOfWeek (now + serverOff) == 1 && hourOfDay (now + serverOff) == 9

/-- Start of the current week as computed by
`DatabaseStorage.shouldReceiveEmailThisWeek` (server/storage.ts): in
server-local wall-clock time, take `now`, go back `(getDay() + 6) % 7`
days and zero the time of day; returned as an absolute instant. -/
def startOfWeekOf (serverOff : Int) (now : Int) : Int :=
  ((now + serverOff) / 86400000 - (dayOfWeek (now + serverOff) + 6) % 7) * 86400000
    - serverOff

/-- `DatabaseStorage.shouldReceiveEmailThisWeek` (server/storage.ts):
eligible iff no email-history row of the user has `sentDate >=
startOfWeek` (a NULL `sentDate` never satisfies the SQL comparison) and
`lastEmailSent` is absent or `< startOfWeek`. -/
def shouldReceiveEmailThisWeek (serverOff : Int) (records : List EmailRecord)
    (user : User) (now : Int) : Bool :=
  let startOfWeek := startOfWeekOf serverOff now
  let recentEmails := records.filter fun r =>
    r.userId == user.id &&
      (match r.sentDate with
       | some t => startOfWeek ≤ t
       | none => false)
  let lastEmailThisWeek :=
    match user.lastEmailSent with
    | some t => startOfWeek ≤ t
    | none => false
  recentEmails.length == 0 && !lastEmailThisWeek

/-- `DatabaseStorage.getUsersNeedingEmails` (server/storage.ts): coarse
SQL filter `isActive AND currentWeek <= 12 AND currentWeek >= 0`, then the
per-user timezone-window test and the duplicate-prevention test. -/
def getUsersNeedingEmails (env : TZEnv) (serverOff : Int) (st : Store) (now : Int) :
    List User :=
  let usersInTimeWindow := st.users.filter fun u =>
    u.isActive && u.currentWeek ≤ 12 && 0 ≤ u.currentWeek
  usersInTimeWindow.filter fun u =>
    isUserTimeWindow env serverOff u now &&
      shouldReceiveEmailThisWeek serverOff st.records u now

/-- `DatabaseStorage.updateEmailStatus` (server/storage.ts): set
`deliveryStatus` on rows with the given id; `sentDate` is included in the
drizzle `set` only when the status is "sent" (an `undefined` value is
dropped from the UPDATE), so it is left unchanged otherwise. -/
def updateEmailStatus (emailId : Nat) (status : String) (now : Int)
    (records : List EmailRecord) : List EmailRecord :=
  records.map fun r =>
    if r.id == emailId then
      { r with
        deliveryStatus := status
        sentDate := if status == "sent" then some now else r.sentDate }
    else r

/-- `updateEmailStatus` lifted to the store. -/
def storeUpdateEmailStatus (st : Store) (emailId : Nat) (status : String)
    (now : Int) : Store :=
  { st with records := updateEmailStatus emailId status now st.records }

/-- `DatabaseStorage.logEmailHistory` (server/storage.ts): INSERT a row.
`deliveryStatus` is the schema default "sent" when the call site omits the
column; `sentDate` takes the schema default now(). -/
def logEmailHistory (st : Store) (userId : Nat) (weekNumber : Int)
    (subject content actionItem : Option String)
    (deliveryStatus : Option String) (nowDb : Int) : Store × EmailRecord :=
  let r : EmailRecord :=
    { id := st.nextRecordId
      userId := userId
      weekNumber := weekNumber
      subject := subject
      content := content
      actionItem := actionItem
      sentDate := some nowDb
      deliveryStatus := deliveryStatus.getD "sent"
      openedAt := none
      clickCount := 0
      resendId := none }
  ({ st with records := st.records ++ [r], nextRecordId := st.nextRecordId + 1 }, r)

/-- Ordering used by `DatabaseStorage.getEmailHistory`'s
`ORDER BY sent_date DESC` (Postgres: NULLS FIRST under DESC). -/
def sentAfter (a b : EmailRecord) : Bool :=
  match a.sentDate, b.sentDate with
  | none, _ => true
  | some _, none => false
  | some x, some y => y ≤ x

/-- `sentAfter` as a relation, for sorting. -/
def sentAfterRel (a b : EmailRecord) : Prop := sentAfter a b = true

instance : DecidableRel sentAfterRel := fun a b =>
  inferInstanceAs (Decidable (sentAfter a b = true))

instance : IsTotal EmailRecord sentAfterRel :=
  ⟨fun a b => by
    unfold sentAfterRel sentAfter
    rcases a.sentDate with _ | x <;> rcases b.sentDate with _ | y
    · simp
    · simp
    · simp
    · simp only [decide_eq_true_eq]
      omega⟩

instance : IsTrans EmailRecord sentAfterRel :=
  ⟨fun a b c => by
    unfold sentAfterRel sentAfter
    rcases a.sentDate with _ | x <;> rcases b.sentDate with _ | y <;>
      rcases c.sentDate with _ | z
    all_goals simp only [decide_eq_true_eq]
    all_goals intros
    all_goals try simp_all
    all_goals omega⟩

instance : IsRefl EmailRecord sentAfterRel :=
  ⟨fun a => by unfold sentAfterRel sentAfter; rcases a.sentDate with _ | x <;> simp⟩

/-- `DatabaseStorage.getEmailHistory` (server/storage.ts): the user's
email-history rows, most recently sent first (`ORDER BY sent_date DESC`). -/
def getEmailHistory (st : Store) (userId : Nat) : List EmailRecord :=
  List.insertionSort sentAfterRel (st.records.filter fun r => r.userId == userId)

/-- The two job kinds of the in-memory queue (services/email-queue.ts). -/
inductive JobType where
  | welcome
  | weekly (weekNumber : Int)
  deriving Repr, DecidableEq

/-- An in-memory queue job (services/email-queue.ts): user snapshot,
enqueue/ready timestamp (ms), retry count. -/
structure EmailJob where
  jobType : JobType
  user : User
  timestamp : Int
  retryCount : Nat
  deriving Repr, DecidableEq

/-- The mutable state of the `EmailQueue` class (services/email-queue.ts):
the job array and the `processing` flag.  These are its only job-holding
fields; there is no failed-job set. -/
structure QueueState where
  queue : List EmailJob
  processing : Bool
  deriving Repr, DecidableEq

/-- Delay written into a re-queued job's timestamp by
`EmailQueue.processQueue` (services/email-queue.ts line 87):
`retryCount * 60000` ms, for the already-incremented retry count. -/
def inMemoryRetryDelay (retryCount : Nat) : Nat :=
  retryCount * 60000

/-- `EmailQueue.processQueue` (services/email-queue.ts): return untouched
when the `processing` flag is set or the queue is empty; otherwise shift
exactly one job, run it (outcome given by the oracle `outcome`), re-queue
it with an incremented retry count and a delayed timestamp when it failed
with `retryCount < 3`, and finally clear the flag.  Also returns the job
processed by this invocation, if any. -/
def processQueue (s : QueueState) (outcome : EmailJob → Bool) (nowMs : Int) :
    QueueState × Option EmailJob :=
  if s.processing || s.queue.isEmpty then (s, none)
  else
    match s.queue with
    | [] => (s, none)
    | job :: rest =>
      let success := outcome job
      if !success && job.retryCount < 3 then
        let job' := { job with
          retryCount := job.retryCount + 1
          timestamp := nowMs + (inMemoryRetryDelay (job.retryCount + 1) : Int) }
        ({ queue := rest ++ [job'], processing := false }, some job)
      else
        ({ queue := rest, processing := false }, some job)

/-- `EmailQueue.addWelcomeEmail` (services/email-queue.ts): push a welcome
job with retry count 0. -/
def addWelcomeEmail (q : QueueState) (user : User) (nowMs : Int) : QueueState :=
  { q with queue :=
      q.queue ++ [{ jobType := .welcome, user := user, timestamp := nowMs, retryCount := 0 }] }

/-- Output of the content generator for a weekly email
(openaiService.generateWeeklyContent). -/
structure WeeklyContent where
  encouragement : String
  actionItem : String
  goalConnection : String
  deriving Repr, DecidableEq

/-- Output of the content generator for the welcome email
(openaiService.analyzeGoals): feedback plus one action per goal. -/
structure GoalAnalysis where
  feedback : String
  goalActions : List (String × String)
  deriving Repr, DecidableEq

/-- The welcome email's persisted action-item text
(services/email-queue.ts line 126): `goal: action` lines joined. -/
def welcomeActionText (g : GoalAnalysis) : String :=
  String.intercalate "\n" (g.goalActions.map fun ga => ga.1 ++ ": " ++ ga.2)

/-- Write-ahead phase of `EmailQueue.processWelcomeEmail`
(services/email-queue.ts lines 121-128): persist the generated content
with an explicit `deliveryStatus: 'pending'` before the send. -/
def queueWelcomePersistPhase (st : Store) (user : User) (g : GoalAnalysis)
    (nowDb : Int) : Store × EmailRecord :=
  logEmailHistory st user.id 1 (some "Welcome to Your Leadership Journey!")
    (some g.feedback) (some (welcomeActionText g)) (some "pending") nowDb

/-- `EmailQueue.processWelcomeEmail` (services/email-queue.ts): persist a
pending record, send, then mark the record "sent" or "failed"; returns the
job outcome. -/
def processWelcomeEmail (st : Store) (user : User) (g : GoalAnalysis)
    (sendOk : Bool) (now nowDb : Int) : Store × Bool :=
  let (st1, rec) := queueWelcomePersistPhase st user g nowDb
  if sendOk then (storeUpdateEmailStatus st1 rec.id "sent" now, true)
  else (storeUpdateEmailStatus st1 rec.id "failed" now, false)

/-- The previous-action argument `EmailQueue.processWeeklyEmail` passes to
the content generator (services/email-queue.ts line 155): a synthesized
string, independent of the user's email history. -/
def queueWeeklyPrevAction (weekNumber : Int) : String :=
  "previous action from week " ++ toString (weekNumber - 1)

/-- Write-ahead phase of `EmailQueue.processWeeklyEmail`
(services/email-queue.ts lines 162-169): persist the generated content
with an explicit `deliveryStatus: 'pending'` before the send. -/
def queueWeeklyPersistPhase (st : Store) (user : User) (weekNumber : Int)
    (content : WeeklyContent) (subject : String) (nowDb : Int) :
    Store × EmailRecord :=
  logEmailHistory st user.id weekNumber (some subject)
    (some content.encouragement) (some content.actionItem) (some "pending") nowDb

/-- `EmailQueue.processWeeklyEmail` (services/email-queue.ts): persist a
pending record, send, then mark the record "sent" or "failed"; the user
row is not touched by this pipeline. -/
def processWeeklyEmail (st : Store) (user : User) (weekNumber : Int)
    (content : WeeklyContent) (subject : String) (sendOk : Bool)
    (now nowDb : Int) : Store × Bool :=
  let (st1, rec) := queueWeeklyPersistPhase st user weekNumber content subject nowDb
  if sendOk then (storeUpdateEmailStatus st1 rec.id "sent" now, true)
  else (storeUpdateEmailStatus st1 rec.id "failed" now, false)

/-- The previous-action context the hourly Scheduler supplies to the
content generator (unnamed scheduler variant, `sendWeeklyEmailToUser`):
the most recent email-history row's action item, or a fixed string when
the user has no history yet. -/
def schedulerPrevAction (st : Store) (userId : Nat) : Option String :=
  match getEmailHistory st userId with
  | [] => some "Starting your leadership journey"
  | r :: _ => r.actionItem

/-- `updateUser(id, { currentWeek, lastEmailSent })` as called by the
Scheduler after a successful send. -/
def setUserProgress (st : Store) (id : Nat) (week : Int) (now : Int) : Store :=
  { st with users := st.users.map fun v =>
      if v.id == id then { v with currentWeek := week, lastEmailSent := some now } else v }

/-- Write-ahead phase of the hourly Scheduler's `sendWeeklyEmailToUser`
(unnamed scheduler variant lines 104-111): the record is logged before the
send but with no `deliveryStatus` column, so the schema default "sent"
applies. -/
def schedulerPersistPhase (st : Store) (user : User) (weekNumber : Int)
    (content : WeeklyContent) (subject : String) (nowDb : Int) :
    Store × EmailRecord :=
  logEmailHistory st user.id weekNumber (some subject)
    (some (content.encouragement ++ "\n\n" ++ content.goalConnection))
    (some content.actionItem) none nowDb

/-- `Scheduler.sendWeeklyEmailToUser` (unnamed scheduler variant lines
82-128): log the record, send, then advance `currentWeek` and
`lastEmailSent`.  A send failure throws, so on `sendOk = false` the
function ends after the record was logged: the record keeps its default
status and the user row is not updated; `false` marks the propagated
exception. -/
def sendWeeklyEmailToUser (st : Store) (user : User) (weekNumber : Int)
    (content : WeeklyContent) (subject : String) (sendOk : Bool)
    (now nowDb : Int) : Store × Bool :=
  let (st1, _) := schedulerPersistPhase st user weekNumber content subject nowDb
  if sendOk then (setUserProgress st1 user.id weekNumber now, true)
  else (st1, false)

/-- One iteration of the per-user loop in the hourly Scheduler's
`processWeeklyEmails` (unnamed scheduler variant lines 40-68): skip users
whose `nextWeek` exceeds 12 and users failing the goals validation,
otherwise run `sendWeeklyEmailToUser` for `currentWeek + 1`. -/
def processUserWeekly (st : Store) (user : User) (content : WeeklyContent)
    (subject : String) (goalsOk sendOk : Bool) (now nowDb : Int) : Store :=
  let nextWeek := user.currentWeek + 1
  if 12 < nextWeek then st
  else if !goalsOk then st
  else (sendWeeklyEmailToUser st user nextWeek content subject sendOk now nowDb).1

/-- Signup request payload (insertUserSchema: email, timezone, goals). -/
structure SignupData where
  email : String
  timezone : String
  goals : List String
  deriving Repr, DecidableEq

/-- `DatabaseStorage.createUser`: INSERT with the column defaults
`currentWeek = 0`, `isActive = true`. -/
def createUser (st : Store) (d : SignupData) : Store × User :=
  let u : User :=
    { id := st.nextUserId
      email := d.email
      timezone := d.timezone
      goals := d.goals
      currentWeek := 0
      isActive := true
      lastEmailSent := none }
  ({ st with users := st.users ++ [u], nextUserId := st.nextUserId + 1 }, u)

/-- `updateUser(id, { currentWeek: 1 })` as called by the signup handler. -/
def setUserCurrentWeek (st : Store) (id : Nat) (week : Int) : Store :=
  { st with users := st.users.map fun v =>
      if v.id == id then { v with currentWeek := week } else v }

/-- The `/api/signup` handler (server/routes.ts lines 110-138): reject a
duplicate email, otherwise create the user, enqueue the welcome email,
and immediately set `currentWeek` to 1 — before the queue has processed
(or sent) anything.  Returns the created user's id, or `none` on the
duplicate-email rejection. -/
def signupHandler (st : Store) (q : QueueState) (d : SignupData) (nowMs : Int) :
    Store × QueueState × Option Nat :=
  if st.users.any fun u => u.email == d.email then (st, q, none)
  else
    let (st1, u) := createUser st d
    let q1 := addWelcomeEmail q u nowMs
    let st2 := setUserCurrentWeek st1 u.id 1
    (st2, q1, some u.id)

/-- BullMQ backoff options of the Redis-backed queue variant
(`RedisEmailQueue` constructor, `defaultJobOptions.backoff`). -/
structure BackoffConfig where
  kind : String
  delay : Nat
  deriving Repr, DecidableEq

/-- The Redis-backed queue's configured backoff: exponential, base 2000 ms. -/
def redisBackoffConfig : BackoffConfig :=
  { kind := "exponential", delay := 2000 }

/-- The Redis-backed queue's configured total attempt budget
(`defaultJobOptions.attempts`). -/
def redisAttempts : Nat := 3

/-- Modelled from the spec: the BullMQ library code computing the delay of
an exponential-backoff retry is not part of this repository; the spec
gives it as `delay = base * 2^attempt`. -/
def bullExponentialDelay (cfg : BackoffConfig) (attempt : Nat) : Nat :=
  cfg.delay * 2 ^ attempt

/-- Models the JavaScript runtime's IANA timezone conversion during
January 2024: America/New_York is on EST (UTC−5, no DST on the chosen
dates), UTC is UTC; any other string is treated as an invalid name (the
runtime would throw a RangeError). -/
def tzEnvJan2024 : TZEnv := fun tz _ =>
  if tz = "America/New_York" then some (-18000000)
  else if tz = "UTC" then some 0
  else none

/-- A user in America/New_York, mid-programme. -/
def nyUser : User :=
  { id := 1
    email := "pat@example.com"
    timezone := "America/New_York"
    goals := ["Give better feedback"]
    currentWeek := 3
    isActive := true
    lastEmailSent := none }

/-- Monday 2024-01-08 14:00:00 UTC (= 9:00 AM EST), in epoch ms. -/
def nyMonday9 : Int := 1704722400000

/-- Sample generated weekly content. -/
def demoContent : WeeklyContent :=
  { encouragement := "Nice work last week"
    actionItem := "Delegate one task"
    goalConnection := "This builds trust" }

/-- C5: for a valid timezone the window test passes exactly on local
Monday hour 9; for an invalid timezone it does not throw and evaluates
Monday-at-9 against server time; concretely, an America/New_York user is
in-window at Monday 14:00 UTC and out-of-window one hour to either side. -/
theorem timeWindow_correct (env : TZEnv) (serverOff : Int) (u : User) (now : Int) :
    (isUserTimeWindow env serverOff u now = true ↔
      (match env u.timezone now with
       | some off => dayOfWeek (now + off) = 1 ∧ hourOfDay (now + off) = 9
       | none => dayOfWeek (now + serverOff) = 1 ∧ hourOfDay (now + serverOff) = 9)) ∧
    isUserTimeWindow tzEnvJan2024 0 nyUser nyMonday9 = true ∧
    isUserTimeWindow tzEnvJan2024 0 nyUser (nyMonday9 - 3600000) = false ∧
    isUserTimeWindow tzEnvJan2024 0 nyUser (nyMonday9 + 3600000) = false := by
  refine ⟨?_, by decide, by decide, by decide⟩
  unfold isUserTimeWindow
  cases h : env u.timezone now with
  | some off => simp
  | none => simp

/-- C6: an in-window candidate passes the duplicate-prevention test iff no
email-history row of theirs has `sentDate ≥ startOfWeek` and their
`lastEmailSent` is null or `< startOfWeek`; and the `startOfWeek` used is
the midnight starting the Monday of the (server-local) week containing
`now`. -/
theorem duplicatePrevention_correct (serverOff : Int) (records : List EmailRecord)
    (u : User) (now : Int) :
    (shouldReceiveEmailThisWeek serverOff records u now = true ↔
      ((∀ r ∈ records, r.userId = u.id → ∀ t, r.sentDate = some t →
          t < startOfWeekOf serverOff now) ∧
       (∀ t, u.lastEmailSent = some t → t < startOfWeekOf serverOff now))) ∧
    (startOfWeekOf serverOff now + serverOff) % 86400000 = 0 ∧
    dayOfWeek (startOfWeekOf serverOff now + serverOff) = 1 ∧
    startOfWeekOf serverOff now ≤ now ∧
    now < startOfWeekOf serverOff now + 7 * 86400000 := by
  constructor
  · unfold shouldReceiveEmailThisWeek
    simp only [List.length_eq_zero, List.filter_eq_nil_iff, Bool.and_eq_true,
      Bool.not_eq_true', beq_iff_eq]
    constructor
    · rintro ⟨hrec, hlast⟩
      refine ⟨fun r hr huid t hst => ?_, fun t hlt => ?_⟩
      · have := hrec r hr
        rw [hst] at this
        simp [huid] at this
        omega
      · rw [hlt] at hlast
        simp at hlast
        omega
    · rintro ⟨hrec, hlast⟩
      constructor
      · intro r hr
        rcases hst : r.sentDate with _ | t
        · simp [hst]
        · by_cases huid : r.userId = u.id
          · have := hrec r hr huid t hst
            simp [hst, huid]
            omega
          · simp [huid]
      · rcases hlt : u.lastEmailSent with _ | t
        · simp
        · have := hlast t hlt
          simp
          omega
  · unfold startOfWeekOf dayOfWeek
    refine ⟨?_, ?_, ?_, ?_⟩ <;> omega

/-- An active America/New_York user who has completed the programme
(`currentWeek = 12`), with no email history. -/
def nyUser12 : User :=
  { id := 7
    email := "sam@example.com"
    timezone := "America/New_York"
    goals := ["Listen more"]
    currentWeek := 12
    isActive := true
    lastEmailSent := none }

/-- A store holding only the completed user. -/
def stNY12 : Store :=
  { users := [nyUser12], records := [], nextUserId := 8, nextRecordId := 1 }

/-- C2 counterexample: at Monday 9 AM EST the Eligibility Selector DOES
return the active user with `currentWeek = 12` — the coarse filter is
`currentWeek <= 12`, so completion is not excluded by the selector. -/
theorem completionBoundary_counterexample :
    nyUser12.currentWeek = 12 ∧ nyUser12.isActive = true ∧
    getUsersNeedingEmails tzEnvJan2024 0 stNY12 nyMonday9 = [nyUser12] := by
  refine ⟨rfl, rfl, ?_⟩
  decide

/-- C2 amended: the selector never returns an inactive user, nor one with
`currentWeek` outside `0..12`; a `currentWeek = 12` user can be returned,
and the completion boundary is enforced downstream by the scheduler's
per-user skip (`nextWeek > 12`), which sends nothing and leaves the store
unchanged. -/
theorem eligibilitySelector_coarseFilter (env : TZEnv) (serverOff : Int)
    (st : Store) (now : Int) (u : User)
    (hu : u ∈ getUsersNeedingEmails env serverOff st now) :
    (u.isActive = true ∧ 0 ≤ u.currentWeek ∧ u.currentWeek ≤ 12) ∧
    (∀ st' u' content subject goalsOk sendOk nowS nowDb, 12 ≤ u'.currentWeek →
      processUserWeekly st' u' content subject goalsOk sendOk nowS nowDb = st') := by
  constructor
  · unfold getUsersNeedingEmails at hu
    simp only [List.mem_filter, Bool.and_eq_true, decide_eq_true_eq] at hu
    exact ⟨hu.1.2.1.1, hu.1.2.2, hu.1.2.1.2⟩
  · intro st' u' content subject goalsOk sendOk nowS nowDb h
    unfold processUserWeekly
    have : (12 : Int) < u'.currentWeek + 1 := by omega
    simp [this]

/-- Witness for the C2 theorem at a concrete selector call. -/
theorem eligibilitySelector_coarseFilter_witness :
    nyUser12.isActive = true ∧ 0 ≤ nyUser12.currentWeek ∧ nyUser12.currentWeek ≤ 12 :=
  (eligibilitySelector_coarseFilter tzEnvJan2024 0 stNY12 nyMonday9 nyUser12
    (by decide)).1

/-- C9: `updateEmailStatus` keeps the table length; the row with the
targeted id gets the new `deliveryStatus`, its `sentDate` is set to now
exactly when the status is "sent" and kept otherwise, every other field of
that row is unchanged, and rows with a different id are untouched. -/
theorem updateEmailStatus_frame (emailId : Nat) (status : String) (now : Int)
    (records : List EmailRecord) (i : Nat) (r : EmailRecord)
    (h : records[i]? = some r) :
    (updateEmailStatus emailId status now records).length = records.length ∧
    ∃ r', (updateEmailStatus emailId status now records)[i]? = some r' ∧
      (r.id = emailId →
        r'.deliveryStatus = status ∧
        r'.sentDate = (if status = "sent" then some now else r.sentDate) ∧
        r'.id = r.id ∧ r'.userId = r.userId ∧ r'.weekNumber = r.weekNumber ∧
        r'.subject = r.subject ∧ r'.content = r.content ∧
        r'.actionItem = r.actionItem ∧ r'.openedAt = r.openedAt ∧
        r'.clickCount = r.clickCount ∧ r'.resendId = r.resendId) ∧
      (r.id ≠ emailId → r' = r) := by
  unfold updateEmailStatus
  refine ⟨List.length_map _ _, ?_⟩
  refine ⟨_, by rw [List.getElem?_map, h]; rfl, ?_, ?_⟩
  · intro hid
    have hb : (r.id == emailId) = true := by simpa using hid
    by_cases hs : status = "sent"
    · simp [hb, hs]
    · simp [hb, hs]
  · intro hid
    have hb : (r.id == emailId) = false := by simpa using hid
    simp [hb]

/-- A concrete pending email-history row, used by witnesses. -/
def demoPendingRecord : EmailRecord :=
  { id := 1
    userId := 1
    weekNumber := 1
    subject := none
    content := none
    actionItem := none
    sentDate := some 5
    deliveryStatus := "pending"
    openedAt := none
    clickCount := 0
    resendId := none }

/-- Witness for the C9 theorem on a concrete one-row table. -/
theorem updateEmailStatus_frame_witness :
    ∃ r', (updateEmailStatus 1 "failed" 99 [demoPendingRecord])[0]? = some r' ∧
      (demoPendingRecord.id = 1 →
        r'.deliveryStatus = "failed" ∧
        r'.sentDate = (if "failed" = "sent" then some 99 else demoPendingRecord.sentDate) ∧
        r'.id = demoPendingRecord.id ∧ r'.userId = demoPendingRecord.userId ∧
        r'.weekNumber = demoPendingRecord.weekNumber ∧
        r'.subject = demoPendingRecord.subject ∧ r'.content = demoPendingRecord.content ∧
        r'.actionItem = demoPendingRecord.actionItem ∧
        r'.openedAt = demoPendingRecord.openedAt ∧
        r'.clickCount = demoPendingRecord.clickCount ∧
        r'.resendId = demoPendingRecord.resendId) ∧
      (demoPendingRecord.id ≠ 1 → r' = demoPendingRecord) :=
  (updateEmailStatus_frame 1 "failed" 99 [demoPendingRecord] 0 demoPendingRecord rfl).2

/-- C10: an invocation of the in-memory queue's `processQueue` that starts
with the `processing` flag set, or with an empty queue, returns without
touching the state or processing anything; otherwise it removes exactly
the head job and processes only it, so the queue length never grows and
drops by at most one. -/
theorem processQueue_atMostOne (s : QueueState) (outcome : EmailJob → Bool)
    (nowMs : Int) :
    (s.processing = true → processQueue s outcome nowMs = (s, none)) ∧
    (s.queue = [] → processQueue s outcome nowMs = (s, none)) ∧
    (processQueue s outcome nowMs).1.queue.length ≤ s.queue.length ∧
    s.queue.length ≤ (processQueue s outcome nowMs).1.queue.length + 1 ∧
    (∀ j, (processQueue s outcome nowMs).2 = some j →
        s.processing = false ∧ s.queue.head? = some j) ∧
    ((processQueue s outcome nowMs).2 = none → (processQueue s outcome nowMs).1 = s) := by
  obtain ⟨q, p⟩ := s
  unfold processQueue
  rcases p with _ | _
  · rcases q with _ | ⟨job, rest⟩
    · simp
    · by_cases hfail : (!outcome job && decide (job.retryCount < 3)) = true
      · simp [hfail]
      · simp [hfail]
  · simp

/-- Witness for the C10 theorem: a call on a busy queue is a no-op. -/
theorem processQueue_atMostOne_witness :
    processQueue { queue := [], processing := true } (fun _ => true) 0
      = ({ queue := [], processing := true }, none) :=
  (processQueue_atMostOne { queue := [], processing := true } (fun _ => true) 0).1 rfl

/-- A welcome job whose processing will always fail. -/
def failJob : EmailJob :=
  { jobType := .welcome, user := nyUser, timestamp := 0, retryCount := 0 }

/-- The queue driven through repeated `processQueue` invocations with an
always-failing job executor (every tick of the 2-second interval), paired
with the number of processing attempts made so far. -/
def failRun : Nat → QueueState × Nat
  | 0 => ({ queue := [failJob], processing := false }, 0)
  | k + 1 =>
    let (s, a) := failRun k
    let (s', p) := processQueue s (fun _ => false) 0
    (s', a + if p.isSome then 1 else 0)

/-- C3 counterexample: after the initial attempt and 3 retries (4 attempts
in total) the always-failing job is dropped from the in-memory queue
entirely — the queue state retains nothing, and later invocations find an
empty queue; there is no permanently-failed set it moves to. -/
theorem boundedRetry_counterexample :
    (failRun 4).2 = 4 ∧
    (failRun 4).1 = { queue := [], processing := false } ∧
    (failRun 9).2 = 4 ∧
    (failRun 9).1 = { queue := [], processing := false } := by
  refine ⟨?_, ?_, ?_, ?_⟩ <;> decide

/-- An exhausted (empty, idle) queue stays exhausted under `processQueue`. -/
theorem failRun_stationary (k : Nat) (h : 4 ≤ k) :
    failRun k = ({ queue := [], processing := false }, 4) := by
  induction k with
  | zero => omega
  | succ n ih =>
    by_cases hn : 4 ≤ n
    · have := ih hn
      unfold failRun
      rw [this]
      decide
    · have : n + 1 = 4 := by omega
      rw [this]
      decide

/-- C3 amended: a job whose processing always fails is attempted exactly 4
times by the in-memory queue — the initial attempt plus exactly 3 retries,
never a 5th attempt — and after the last failure it is removed from the
queue with nothing retained: the `EmailQueue` state has no
permanently-failed set. -/
theorem boundedRetry_amended (k : Nat) :
    (failRun k).2 ≤ 4 ∧ (4 ≤ k → (failRun k).2 = 4 ∧ (failRun k).1.queue = []) := by
  constructor
  · by_cases h : 4 ≤ k
    · rw [failRun_stationary k h]
    · interval_cases k <;> decide
  · intro h
    rw [failRun_stationary k h]
    exact ⟨rfl, rfl⟩

/-- Witness for the C3 theorem at the 6th invocation. -/
theorem boundedRetry_amended_witness :
    (failRun 6).2 = 4 ∧ (failRun 6).1.queue = [] :=
  (boundedRetry_amended 6).2 (by omega)

/-- C7 counterexample: the in-memory queue's retry delays grow linearly
(60000, 120000, 180000 ms), not exponentially: the delay before the third
retry is not twice the delay before the second, both measured on the
re-queued job's own timestamp (`failRun` runs with `Date.now() = 0`). -/
theorem backoff_counterexample :
    inMemoryRetryDelay 1 = 60000 ∧
    inMemoryRetryDelay 2 = 2 * inMemoryRetryDelay 1 ∧
    inMemoryRetryDelay 3 ≠ 2 * inMemoryRetryDelay 2 ∧
    (failRun 2).1.queue.map EmailJob.timestamp = [120000] ∧
    (failRun 3).1.queue.map EmailJob.timestamp = [180000] ∧
    (180000 : Int) ≠ 2 * 120000 := by
  refine ⟨rfl, by decide, by decide, by decide, by decide, by decide⟩

/-- C7 amended: the in-memory queue's retry delay grows arithmetically —
`delay = retryCount * 60000`, so each successive delay exceeds the
previous by a constant 60000 ms; the Redis-backed queue variant is the one
configured with exponential backoff (base 2000 ms), under which each
successive delay is twice the previous. -/
theorem backoff_amended (n : Nat) :
    inMemoryRetryDelay (n + 1) = inMemoryRetryDelay n + 60000 ∧
    redisBackoffConfig.kind = "exponential" ∧
    bullExponentialDelay redisBackoffConfig (n + 1)
      = 2 * bullExponentialDelay redisBackoffConfig n := by
  unfold inMemoryRetryDelay bullExponentialDelay redisBackoffConfig
  refine ⟨by ring, rfl, by ring⟩

/-- A store holding only the mid-programme user, no history yet. -/
def stNY3 : Store :=
  { users := [nyUser], records := [], nextUserId := 2, nextRecordId := 1 }

/-- C1 counterexample: in the hourly Scheduler's weekly pipeline the
record persisted before the transmission attempt carries the schema
default status "sent" — not "pending" — and after a failed transmission
the store still holds that record as "sent", with no "failed" record
anywhere. -/
theorem writeAhead_counterexample :
    (schedulerPersistPhase stNY3 nyUser 4 demoContent "Week 4" 0).2.deliveryStatus
        = "sent" ∧
    ¬ (schedulerPersistPhase stNY3 nyUser 4 demoContent "Week 4" 0).2.deliveryStatus
        = "pending" ∧
    ((sendWeeklyEmailToUser stNY3 nyUser 4 demoContent "Week 4" false 5 0).1.records.map
        EmailRecord.deliveryStatus = ["sent"]) ∧
    ((sendWeeklyEmailToUser stNY3 nyUser 4 demoContent "Week 4" false 5 0).1.records.filter
        (fun r => r.deliveryStatus == "failed") = []) := by
  refine ⟨rfl, by decide, by decide, by decide⟩

/-- C1 amended: the in-memory queue's pipelines do satisfy the
write-ahead invariant — both the welcome and the weekly pipeline persist
the record with status "pending" before the transmission attempt, and a
failed transmission leaves that record in status "failed" with the
generated subject, content and action item preserved. -/
theorem writeAhead_queuePipelines (st : Store) (u : User) (wk : Int)
    (content : WeeklyContent) (subject : String) (g : GoalAnalysis)
    (now nowDb : Int) :
    ((queueWeeklyPersistPhase st u wk content subject nowDb).2.deliveryStatus
        = "pending" ∧
     (queueWeeklyPersistPhase st u wk content subject nowDb).2
        ∈ (queueWeeklyPersistPhase st u wk content subject nowDb).1.records ∧
     (queueWeeklyPersistPhase st u wk content subject nowDb).2.userId = u.id ∧
     (queueWeeklyPersistPhase st u wk content subject nowDb).2.weekNumber = wk) ∧
    (∃ r ∈ (processWeeklyEmail st u wk content subject false now nowDb).1.records,
        r.userId = u.id ∧ r.weekNumber = wk ∧ r.deliveryStatus = "failed" ∧
        r.subject = some subject ∧ r.content = some content.encouragement ∧
        r.actionItem = some content.actionItem) ∧
    ((queueWelcomePersistPhase st u g nowDb).2.deliveryStatus = "pending" ∧
     (queueWelcomePersistPhase st u g nowDb).2
        ∈ (queueWelcomePersistPhase st u g nowDb).1.records ∧
     (queueWelcomePersistPhase st u g nowDb).2.userId = u.id ∧
     (queueWelcomePersistPhase st u g nowDb).2.weekNumber = 1) ∧
    (∃ r ∈ (processWelcomeEmail st u g false now nowDb).1.records,
        r.userId = u.id ∧ r.weekNumber = 1 ∧ r.deliveryStatus = "failed" ∧
        r.content = some g.feedback ∧ r.actionItem = some (welcomeActionText g)) := by
  refine ⟨⟨rfl, ?_, rfl, rfl⟩, ?_, ⟨rfl, ?_, rfl, rfl⟩, ?_⟩
  · unfold queueWeeklyPersistPhase logEmailHistory
    simp
  · unfold processWeeklyEmail queueWeeklyPersistPhase logEmailHistory
      storeUpdateEmailStatus updateEmailStatus
    simp only [List.map_append, List.map_cons, List.map_nil, beq_self_eq_true, if_true]
    refine ⟨_, List.mem_append_right _ (List.mem_singleton_self _), ?_⟩
    simp
  · unfold queueWelcomePersistPhase logEmailHistory
    simp
  · unfold processWelcomeEmail queueWelcomePersistPhase logEmailHistory
      storeUpdateEmailStatus updateEmailStatus
    simp only [List.map_append, List.map_cons, List.map_nil, beq_self_eq_true, if_true]
    refine ⟨_, List.mem_append_right _ (List.mem_singleton_self _), ?_⟩
    simp

/-- An earlier sent record whose action item is the real previous action. -/
def recDelegate : EmailRecord :=
  { id := 1
    userId := 1
    weekNumber := 4
    subject := some "Week 4 Leadership Challenge"
    content := some "Nice work last week"
    actionItem := some "Delegate one task"
    sentDate := some 1704117600000
    deliveryStatus := "sent"
    openedAt := none
    clickCount := 0
    resendId := none }

/-- A store where the user has email history. -/
def stHist : Store :=
  { users := [nyUser], records := [recDelegate], nextUserId := 2, nextRecordId := 2 }

/-- C8 counterexample: for a Weekly job targeting week 5, the queue
pipeline supplies the synthesized placeholder string to the content
generator, not the most recent EmailRecord's action-item text. -/
theorem previousAction_counterexample :
    schedulerPrevAction stHist 1 = some "Delegate one task" ∧
    queueWeeklyPrevAction 5 = "previous action from week 4" ∧
    "previous action from week 4" ≠ "Delegate one task" := by
  refine ⟨by decide, by decide, by decide⟩

/-- C8 amended: the hourly Scheduler's weekly pipeline does look up the
user's most recent EmailRecord (the `sentAfterRel`-greatest row of the
user) and supplies its action-item text as the previous-action context;
the queue weekly pipelines instead pass the synthesized placeholder
`previous action from week N-1`. -/
theorem previousAction_lookup (st : Store) (uid : Nat)
    (h : getEmailHistory st uid ≠ []) :
    ∃ r ∈ st.records, r.userId = uid ∧ schedulerPrevAction st uid = r.actionItem ∧
      ∀ r' ∈ st.records, r'.userId = uid → sentAfterRel r r' := by
  rcases hh : getEmailHistory st uid with _ | ⟨r, rest⟩
  · exact absurd hh h
  · have hperm : List.Perm (getEmailHistory st uid)
        (st.records.filter fun x => x.userId == uid) :=
      List.perm_insertionSort _ _
    have hmem : r ∈ st.records.filter fun x => x.userId == uid := by
      rw [← hperm.mem_iff, hh]
      exact List.mem_cons_self _ _
    have hr := List.mem_filter.mp hmem
    have hsorted : List.Sorted sentAfterRel (r :: rest) := by
      rw [← hh]
      exact List.sorted_insertionSort sentAfterRel _
    have hmax : ∀ x ∈ rest, sentAfterRel r x := (List.sorted_cons.mp hsorted).1
    refine ⟨r, hr.1, by simpa using hr.2, ?_, ?_⟩
    · unfold schedulerPrevAction
      rw [hh]
    · intro r' hr' huid
      have hin : r' ∈ getEmailHistory st uid := by
        rw [hperm.mem_iff]
        exact List.mem_filter.mpr ⟨hr', by simpa using huid⟩
      rw [hh] at hin
      rcases List.mem_cons.mp hin with heq | hmem'
      · rw [heq]
        exact refl_of sentAfterRel r
      · exact hmax _ hmem'

/-- Witness for the C8 theorem on the concrete store with history. -/
theorem previousAction_lookup_witness :
    ∃ r ∈ stHist.records, r.userId = 1 ∧ schedulerPrevAction stHist 1 = r.actionItem ∧
      ∀ r' ∈ stHist.records, r'.userId = 1 → sentAfterRel r r' :=
  previousAction_lookup stHist 1 (by decide)

/-- The empty store. -/
def emptyStore : Store :=
  { users := [], records := [], nextUserId := 1, nextRecordId := 1 }

/-- The idle empty queue. -/
def emptyQueue : QueueState :=
  { queue := [], processing := false }

/-- A signup request. -/
def patSignup : SignupData :=
  { email := "pat@example.com", timezone := "UTC", goals := ["Give better feedback"] }

/-- Sample welcome-email content analysis. -/
def demoAnalysis : GoalAnalysis :=
  { feedback := "Great goals"
    goalActions := [("Give better feedback", "Ask one open question")] }

/-- C4 counterexample: right after the signup handler returns, the new
user's `programWeek` is already 1 while the welcome job is still sitting
unprocessed in the queue and no EmailRecord exists at all — so no welcome
email has been sent. -/
theorem welcomeAdvance_counterexample :
    ((signupHandler emptyStore emptyQueue patSignup 0).1.users.map User.currentWeek
        = [1]) ∧
    ((signupHandler emptyStore emptyQueue patSignup 0).1.records = []) ∧
    ((signupHandler emptyStore emptyQueue patSignup 0).2.1.queue.map EmailJob.jobType
        = [JobType.welcome]) := by
  refine ⟨by decide, by decide, by decide⟩

/-- C4 amended: `programWeek` never decreases under the modelled core
operations; the Scheduler's weekly pipeline advances the target user's
week by exactly 1 only after a successful send and leaves every user
untouched on a failed send; the queue pipelines never modify user rows;
but the signup flow sets the new user's week to 1 immediately at signup,
before the welcome email is processed or sent. -/
theorem programWeek_progression (st : Store) (q : QueueState) (d : SignupData)
    (nowMs : Int) (u : User) (wk : Int) (content : WeeklyContent)
    (subject : String) (g : GoalAnalysis) (sendOk : Bool) (now nowDb : Int)
    (hwf : ∀ v ∈ st.users, v.id < st.nextUserId)
    (hsnap : ∀ v ∈ st.users, v.id = u.id → v.currentWeek = u.currentWeek) :
    ((signupHandler st q d nowMs).2.2.isSome = true →
        (signupHandler st q d nowMs).1.users.map User.currentWeek
            = st.users.map User.currentWeek ++ [1] ∧
        (signupHandler st q d nowMs).1.records = st.records ∧
        (signupHandler st q d nowMs).2.1.queue.length = q.queue.length + 1) ∧
    ((sendWeeklyEmailToUser st u (u.currentWeek + 1) content subject true
        now nowDb).1.users.map User.currentWeek
      = st.users.map fun v => if v.id = u.id then v.currentWeek + 1 else v.currentWeek) ∧
    (sendWeeklyEmailToUser st u wk content subject false now nowDb).1.users = st.users ∧
    (processWeeklyEmail st u wk content subject sendOk now nowDb).1.users = st.users ∧
    (processWelcomeEmail st u g sendOk now nowDb).1.users = st.users := by
  refine ⟨?_, ?_, rfl, ?_, ?_⟩
  · intro hs
    rcases hany : st.users.any fun v => v.email == d.email with _ | _
    · refine ⟨?_, ?_, ?_⟩
      · unfold signupHandler createUser addWelcomeEmail setUserCurrentWeek
        simp only [hany, Bool.false_eq_true, if_false, List.map_append, List.map_map]
        congr 1
        · apply List.map_congr_left
          intro v hv
          have hne : (v.id == st.nextUserId) = false := by
            have := hwf v hv
            simp only [beq_eq_false_iff_ne]
            omega
          simp [Function.comp, hne]
        · simp
      · unfold signupHandler createUser addWelcomeEmail setUserCurrentWeek
        simp [hany]
      · unfold signupHandler createUser addWelcomeEmail setUserCurrentWeek
        simp [hany]
    · unfold signupHandler at hs
      simp [hany] at hs
  · unfold sendWeeklyEmailToUser schedulerPersistPhase logEmailHistory setUserProgress
    simp only [if_true, List.map_map]
    apply List.map_congr_left
    intro v hv
    by_cases hid : v.id = u.id
    · have hw := hsnap v hv hid
      simp [Function.comp, hid, hw]
    · simp [Function.comp, hid]
  · cases sendOk <;> rfl
  · cases sendOk <;> rfl

/-- Witness for the C4 theorem at a concrete signup into an empty store. -/
theorem programWeek_progression_witness :
    ((signupHandler emptyStore emptyQueue patSignup 0).2.2.isSome = true →
        (signupHandler emptyStore emptyQueue patSignup 0).1.users.map User.currentWeek
            = emptyStore.users.map User.currentWeek ++ [1] ∧
        (signupHandler emptyStore emptyQueue patSignup 0).1.records
            = emptyStore.records ∧
        (signupHandler emptyStore emptyQueue patSignup 0).2.1.queue.length
            = emptyQueue.queue.length + 1) ∧
    ((sendWeeklyEmailToUser emptyStore nyUser (nyUser.currentWeek + 1) demoContent
        "Week 4" true 0 0).1.users.map User.currentWeek
      = emptyStore.users.map fun v =>
          if v.id = nyUser.id then v.currentWeek + 1 else v.currentWeek) ∧
    (sendWeeklyEmailToUser emptyStore nyUser 4 demoContent "Week 4" false
        0 0).1.users = emptyStore.users ∧
    (processWeeklyEmail emptyStore nyUser 4 demoContent "Week 4" true
        0 0).1.users = emptyStore.users ∧
    (processWelcomeEmail emptyStore nyUser demoAnalysis true 0 0).1.users
        = emptyStore.users :=
  programWeek_progression emptyStore emptyQueue patSignup 0 nyUser 4 demoContent
    "Week 4" demoAnalysis true 0 0 (by simp [emptyStore]) (by simp [emptyStore])
